import Mathlib

/-!
Verification development for the quantitative stock-signal repository.

The repository evaluates technical-analysis buy/sell checklists over ordered
price/volume bar series.  This file gives a shallow embedding of the rule and
indicator functions (prices and volumes are modelled as rationals, pandas NaN
cells as `Option.none`) and proves the stated properties about them.

Embedded source functions:
  - stock_utils.calculate_macd (identical copies live in sellSingleStock.py,
    scanNasdaq100.py and main.py): pandas `ewm(span, adjust=False).mean()`
    follows the recurrence y0 = x0, yt = xt*a + y(t-1)*(1-a), a = 2/(span+1).
  - stock_utils.check_buy_rules (10-rule buy checklist, with the in-place
    DataFrame column additions modelled as an explicit frame update).
  - main.get_stock_analysis (the 9-rule variant that lacks the 30-bar guard).
  - check_index_buy.check_index_buy_signal / check_index_sell.check_index_sell_signal
    (decision kernels over the four moving-average indicator values).
  - check_index_buy.analyze_volume_trend.
  - sellSingleStock.find_last_death_cross_week / check_sell_signal.
  - check_stop_loss.check_stop_loss.
  - scanNasdaq100.main ranking step (stable sort by pass count, top 5).
-/

/-- One OHLCV bar; field names follow the DataFrame column names.
Prices and volumes are modelled as rationals. -/
structure Bar where
  Open : ℚ
  High : ℚ
  Low : ℚ
  Close : ℚ
  Volume : ℚ
deriving Repr, DecidableEq

instance : Inhabited Bar := ⟨⟨0, 0, 0, 0, 0⟩⟩

/-- Mean of a list of rationals (sum divided by length; the empty case, which
returns 0 by the rational division-by-zero convention, is always guarded at
call sites, mirroring numpy mean over a nonempty slice). -/
def qmean (l : List ℚ) : ℚ := l.sum / (l.length : ℚ)

/-- Maximum of a list of rationals, mirroring pandas `.max()`; the empty case
is unreachable at all call sites (guarded by length checks). -/
def qmax : List ℚ → ℚ
  | [] => 0
  | x :: xs => xs.foldl max x

/-- Minimum of a list of rationals, mirroring pandas `.min()`. -/
def qmin : List ℚ → ℚ
  | [] => 0
  | x :: xs => xs.foldl min x

/-- Trailing slice of length `n`, mirroring `df.iloc[-n:]`. -/
def lastN (n : Nat) (l : List α) : List α := l.drop (l.length - n)

/-- Tail of the recurrence behind pandas `ewm(span, adjust=False).mean()`:
given the previous smoothed value, each new element x contributes
x*a + prev*(1-a). -/
def ewmGo (a : ℚ) : ℚ → List ℚ → List ℚ
  | _, [] => []
  | prev, x :: xs =>
    let e := x * a + prev * (1 - a)
    e :: ewmGo a e xs

/-- Embedding of pandas `Series.ewm(span, adjust=False).mean()` with smoothing
factor `a = 2/(span+1)`: the first output equals the first input, and each
later output is x*a + prev*(1-a). -/
def ewmMean (a : ℚ) : List ℚ → List ℚ
  | [] => []
  | x :: xs => x :: ewmGo a x xs

/-- Result columns added by calculate_macd. -/
structure MacdResult where
  dif : List ℚ
  dea : List ℚ
  macd : List ℚ
deriving Repr, DecidableEq

/-- Embedding of calculate_macd (stock_utils.py; byte-identical copies in
sellSingleStock.py, scanNasdaq100.py, main.py).  `close` is the Close column;
the three output columns are MACD_DIF, MACD_DEA and MACD. -/
def calculate_macd (close : List ℚ) (fast : Nat := 12) (slow : Nat := 26)
    (signal : Nat := 9) : MacdResult :=
  let exp1 := ewmMean (2 / ((fast : ℚ) + 1)) close
  let exp2 := ewmMean (2 / ((slow : ℚ) + 1)) close
  let dif := List.zipWith (fun x y => x - y) exp1 exp2
  let dea := ewmMean (2 / ((signal : ℚ) + 1)) dif
  let macd := List.zipWith (fun x y => 2 * (x - y)) dif dea
  ⟨dif, dea, macd⟩

/-- Outcome fields of check_index_buy_signal (check_index_buy.py): the two
sub-rule verdicts and the combined buy decision. -/
structure IndexBuyResult where
  rule_1_passed : Bool
  rule_2_passed : Bool
  should_buy : Bool
deriving Repr, DecidableEq

/-- Decision kernel of check_index_buy_signal (check_index_buy.py, lines
148-186) over the four fetched indicator values: rule 1 is
current monthly 10MA > previous monthly 10MA, rule 2 is
weekly 10MA > weekly 20MA, and buy requires both.  The data-fetch and
NaN-guard error paths return before this computation and are not modelled. -/
def check_index_buy_signal (current_10ma_monthly prev_10ma_monthly
    ma10_weekly ma20_weekly : ℚ) : IndexBuyResult :=
  let rule_1_passed := decide (current_10ma_monthly > prev_10ma_monthly)
  let rule_2_passed := decide (ma10_weekly > ma20_weekly)
  ⟨rule_1_passed, rule_2_passed, rule_1_passed && rule_2_passed⟩

/-- Outcome fields of check_index_sell_signal (check_index_sell.py). -/
structure IndexSellResult where
  rule_1_triggered : Bool
  rule_2_triggered : Bool
  should_sell : Bool
deriving Repr, DecidableEq

/-- Decision kernel of check_index_sell_signal (check_index_sell.py, lines
143-190): rule 1 triggers when current monthly 10MA < previous monthly 10MA,
rule 2 when weekly 10MA < weekly 20MA, and either one triggers the sell.
Both comparisons are strict. -/
def check_index_sell_signal (current_10ma_monthly prev_10ma_monthly
    ma10_weekly ma20_weekly : ℚ) : IndexSellResult :=
  let rule_1_triggered := decide (current_10ma_monthly < prev_10ma_monthly)
  let rule_2_triggered := decide (ma10_weekly < ma20_weekly)
  ⟨rule_1_triggered, rule_2_triggered, rule_1_triggered || rule_2_triggered⟩

/-- One purchase record from purchase_records.json (a lot); quantity is
optional. -/
structure PurchaseRecord where
  symbol : String
  purchase_price : ℚ
  purchase_date : String
  quantity : Option ℚ
deriving Repr, DecidableEq

/-- Stop-loss analysis fields for one lot (check_stop_loss.py). -/
structure StopLossResult where
  drop_pct : ℚ
  loss_amount : Option ℚ
  triggered : Bool
deriving Repr, DecidableEq

/-- Threshold constant STOP_LOSS_THRESHOLD from check_stop_loss.py. -/
def STOP_LOSS_THRESHOLD : ℚ := 7

/-- Embedding of check_stop_loss (check_stop_loss.py, lines 49-103) for one
lot.  The fetched current price is passed in as an Option, mirroring
get_current_stock_price; a missing price yields the error result (none).
Each lot computes its drop from its own purchase price. -/
def check_stop_loss (record : PurchaseRecord) (current_price : Option ℚ) :
    Option StopLossResult :=
  current_price.map fun cp =>
    let drop_pct := (record.purchase_price - cp) / record.purchase_price * 100
    let triggered := decide (drop_pct ≥ STOP_LOSS_THRESHOLD)
    let loss_amount := record.quantity.map fun q => (record.purchase_price - cp) * q
    ⟨drop_pct, loss_amount, triggered⟩

/-- Per-lot loop of check_all_stop_loss (check_stop_loss.py): every record is
checked on its own, with the price looked up for its own symbol. -/
def check_all_stop_loss (records : List PurchaseRecord)
    (price_of : String → Option ℚ) : List (Option StopLossResult) :=
  records.map fun r => check_stop_loss r (price_of r.symbol)

/-- One row of the weekly DataFrame as seen by the death-cross scan: the
MACD_DIF and MACD_DEA columns (added by calculate_macd) and the Low column.
Rationals have no NaN, so the source's skip of NaN rows is vacuous here. -/
structure MRow where
  dif : ℚ
  dea : ℚ
  low : ℚ
deriving Repr, DecidableEq

/-- The crossing test of find_last_death_cross_week at index i: the previous
row has DIF strictly above DEA and row i has DIF at or below DEA.  The scan
never tests index 0 (it has no previous row), so the predicate is false
there. -/
def deathCrossAt (rows : List MRow) (i : Nat) : Bool :=
  if i = 0 then false
  else
    match rows.get? (i - 1), rows.get? i with
    | some p, some c => decide (p.dif > p.dea) && decide (c.dif ≤ c.dea)
    | _, _ => false

/-- Low of row i (0 when out of range; only used at in-range indices). -/
def lowAt (rows : List MRow) (i : Nat) : ℚ := ((rows.get? i).map MRow.low).getD 0

/-- Backward loop of find_last_death_cross_week: tests indices n, n-1, ..., 1
and stops at the first (hence most recent) crossing. -/
def findCrossFrom (rows : List MRow) : Nat → Option (Nat × ℚ)
  | 0 => none
  | i + 1 =>
    if deathCrossAt rows (i + 1) then some (i + 1, lowAt rows (i + 1))
    else findCrossFrom rows i

/-- Embedding of find_last_death_cross_week (sellSingleStock.py, lines
40-67): scan from the most recent bar backward for a death cross and return
its index together with that week's low; none when the series is too short
or no crossing exists. -/
def find_last_death_cross_week (rows : List MRow) : Option (Nat × ℚ) :=
  if rows.length < 2 then none
  else findCrossFrom rows (rows.length - 1)

/-- Rows of the weekly DataFrame after calculate_macd, as consumed by the
death-cross scan: DIF and DEA pointwise with each bar's Low. -/
def macdRows (bars : List Bar) : List MRow :=
  let m := calculate_macd (bars.map Bar.Close)
  List.zipWith (fun b p => MRow.mk p.1 p.2 b.Low) bars (m.dif.zip m.dea)

/-- Outcome fields of check_sell_signal (sellSingleStock.py): whether a death
cross was found, its week's low, and the sell verdict. -/
structure SellSignalResult where
  death_cross_found : Bool
  death_cross_week_low : Option ℚ
  should_sell : Bool
deriving Repr, DecidableEq

/-- Embedding of check_sell_signal (sellSingleStock.py, lines 100-126): with
fewer than 2 bars the insufficient-data error dictionary is returned
(modelled none); otherwise the most recent death cross is looked up and
the sell verdict is current_price < that week's low, with an explicit
no-crossing-found result (death_cross_found = false) when none exists.
The current price is passed in, mirroring the fetched real-time price. -/
def check_sell_signal (bars : List Bar) (current_price : ℚ) :
    Option SellSignalResult :=
  if bars.length < 2 then none
  else
    match find_last_death_cross_week (macdRows bars) with
    | none => some ⟨false, none, false⟩
    | some (_, low) => some ⟨true, some low, decide (current_price < low)⟩

/-- No crossing strictly above index i (within the series). -/
def noCrossAbove (rows : List MRow) (i : Nat) : Bool :=
  (List.range rows.length).all fun j => decide (j ≤ i) || ! deathCrossAt rows j

/-- No crossing anywhere in the series. -/
def noCrossAnywhere (rows : List MRow) : Bool :=
  (List.range rows.length).all fun j => ! deathCrossAt rows j

/-- Concrete DIF/DEA/Low rows with exactly one crossing, at index 3, and a
non-crossing fluctuation after it. -/
def exCrossRows : List MRow :=
  [⟨2, 1, 10⟩, ⟨3, 1, 11⟩, ⟨3, 2, 12⟩, ⟨1, 2, 9⟩, ⟨3 / 2, 2, 8⟩]

/-- Concrete rows with DIF always below DEA: no crossing anywhere. -/
def exFlatRows : List MRow := [⟨0, 1, 5⟩, ⟨0, 1, 6⟩]

/-- Concrete weekly bars whose computed MACD has its last death cross at
index 5 (closes rise 10,12,14,16 then drop to 8,8,8); the low of week 5
is 7. -/
def exSellBars : List Bar :=
  [⟨10, 10, 9, 10, 1⟩, ⟨12, 12, 11, 12, 1⟩, ⟨14, 14, 13, 14, 1⟩,
   ⟨16, 16, 15, 16, 1⟩, ⟨8, 8, 7, 8, 1⟩, ⟨8, 8, 7, 8, 1⟩, ⟨8, 8, 7, 8, 1⟩]

/-- Column produced by pandas `Series.diff()` on a window: the first entry is
NaN (modelled none), each later entry is the difference to the previous
entry. -/
def diffO : List ℚ → List (Option ℚ)
  | [] => []
  | x :: xs => none :: List.zipWith (fun prev next => some (next - prev)) (x :: xs) xs

/-- The `is_up` mask of analyze_volume_trend: pandas evaluates `NaN > 0` as
False, so a missing change is classified not-up. -/
def optPos : Option ℚ → Bool
  | some q => decide (0 < q)
  | none => false

/-- The volume-shrink mask: pandas evaluates `NaN < 0` as False. -/
def optNeg : Option ℚ → Bool
  | some q => decide (q < 0)
  | none => false

/-- Total volume of the window rows whose close change is strictly positive
(the `up_months` of analyze_volume_trend). -/
def windowUpVolume (w : List Bar) : ℚ :=
  (((w.zip (diffO (w.map Bar.Close))).filter fun r => optPos r.2).map
    fun r => r.1.Volume).sum

/-- Total volume of the window rows whose `is_up` mask is False (the
`down_months`); note that pandas puts the window's first row here, its
change being NaN. -/
def windowDownVolume (w : List Bar) : ℚ :=
  (((w.zip (diffO (w.map Bar.Close))).filter fun r => ! optPos r.2).map
    fun r => r.1.Volume).sum

/-- The positive-signal rule of analyze_volume_trend: up volume above down
volume, asserted only when both totals are strictly positive. -/
def windowPositiveSignal (w : List Bar) : Bool :=
  if 0 < windowUpVolume w ∧ 0 < windowDownVolume w then
    decide (windowDownVolume w < windowUpVolume w)
  else false

/-- Result fields of analyze_volume_trend (check_index_buy.py); the display
rounding of the source is omitted. -/
structure VolumeTrendResult where
  up_months_count : Nat
  down_months_count : Nat
  total_up_volume : ℚ
  total_down_volume : ℚ
  volume_ratio : ℚ
  up_with_volume_increase_pct : ℚ
  down_with_volume_decrease_pct : ℚ
  positive_signal : Bool
deriving Repr, DecidableEq

/-- Embedding of analyze_volume_trend (check_index_buy.py, lines 34-93):
classify the trailing 10 months by the sign of the close difference, total
the volumes of the up and of the not-up months, and derive the ratio,
percentage and positive-signal fields; fewer than 10 months yields the
error dictionary (none). -/
def analyze_volume_trend (monthly : List Bar) : Option VolumeTrendResult :=
  if monthly.length < 10 then none
  else
    let recent := lastN 10 monthly
    let vchange := diffO (recent.map Bar.Volume)
    let rows := (recent.zip (diffO (recent.map Bar.Close))).zip vchange
    let up := rows.filter fun r => optPos r.1.2
    let down := rows.filter fun r => ! optPos r.1.2
    let total_up := windowUpVolume recent
    let total_down := windowDownVolume recent
    some
      { up_months_count := up.length
        down_months_count := down.length
        total_up_volume := total_up
        total_down_volume := total_down
        volume_ratio := if 0 < total_down then total_up / total_down else 0
        up_with_volume_increase_pct :=
          if up.length ≠ 0 then
            ((up.filter fun r => optPos r.2).length : ℚ) / (up.length : ℚ) * 100
          else 0
        down_with_volume_decrease_pct :=
          if down.length ≠ 0 then
            ((down.filter fun r => optNeg r.2).length : ℚ) / (down.length : ℚ) * 100
          else 0
        positive_signal := windowPositiveSignal recent }

/-- Specification-side description of the up-volume total over the bars after
the window head: the volume of each bar whose close strictly exceeds the
previous close. -/
def specUpVolume : ℚ → List Bar → ℚ
  | _, [] => 0
  | prev, b :: bs => (if prev < b.Close then b.Volume else 0) + specUpVolume b.Close bs

/-- Specification-side description of the not-up volume total over the bars
after the window head. -/
def specDownVolume : ℚ → List Bar → ℚ
  | _, [] => 0
  | prev, b :: bs => (if prev < b.Close then 0 else b.Volume) + specDownVolume b.Close bs

/-- Ten bars with strictly increasing closes (1..10) and unit volumes: under
the spec reading no bar is a down-bar, but pandas classifies the window head
as not-up. -/
def exUpBars : List Bar :=
  [⟨1, 1, 1, 1, 1⟩, ⟨2, 2, 2, 2, 1⟩, ⟨3, 3, 3, 3, 1⟩, ⟨4, 4, 4, 4, 1⟩,
   ⟨5, 5, 5, 5, 1⟩, ⟨6, 6, 6, 6, 1⟩, ⟨7, 7, 7, 7, 1⟩, ⟨8, 8, 8, 8, 1⟩,
   ⟨9, 9, 9, 9, 1⟩, ⟨10, 10, 10, 10, 1⟩]

/-- Head bar of a small three-bar window used in the C8 witness. -/
def exW0 : Bar := ⟨1, 1, 1, 5, 2⟩

/-- Remaining bars of the small window: one up month (volume 3), one down
month (volume 4). -/
def exWrest : List Bar := [⟨1, 1, 1, 6, 3⟩, ⟨1, 1, 1, 4, 4⟩]

/-- Comparison of two possibly-missing values, as pandas evaluates `x > y`:
any NaN operand makes the comparison False.  The source additionally guards
most comparisons with pd.isna checks that yield False on missing values, so
both paths collapse to this function. -/
def optGTq : Option ℚ → Option ℚ → Bool
  | some x, some y => decide (x > y)
  | _, _ => false

/-- Embedding of pandas `Series.rolling(window=w).mean()`: undefined (none)
before index w-1, else the mean of the trailing w values. -/
def rollingMean (w : Nat) (xs : List ℚ) : List (Option ℚ) :=
  (List.range xs.length).map fun i =>
    if w ≤ i + 1 then some (qmean ((xs.drop (i + 1 - w)).take w)) else none

/-- The DataFrame as mutated by check_buy_rules: the fetched OHLCV bars plus
the derived columns the function assigns in place (none before they are
added).  The MA columns carry missing values at the head, the MACD columns
are total. -/
structure Frame where
  bars : List Bar
  ma10col : Option (List (Option ℚ))
  ma20col : Option (List (Option ℚ))
  ma30col : Option (List (Option ℚ))
  difCol : Option (List ℚ)
  deaCol : Option (List ℚ)
  macdCol : Option (List ℚ)
deriving Repr, DecidableEq

/-- The in-place column assignments of check_buy_rules
(`df['10MA'] = ...` through calculate_macd): every derived column is
(re)computed from the Close column and stored on the frame. -/
def addIndicators (f : Frame) : Frame :=
  { f with
    ma10col := some (rollingMean 10 (f.bars.map Bar.Close))
    ma20col := some (rollingMean 20 (f.bars.map Bar.Close))
    ma30col := some (rollingMean 30 (f.bars.map Bar.Close))
    difCol := some (calculate_macd (f.bars.map Bar.Close)).dif
    deaCol := some (calculate_macd (f.bars.map Bar.Close)).dea
    macdCol := some (calculate_macd (f.bars.map Bar.Close)).macd }

/-- Rule 5 of the checklist (stock_utils.check_buy_rules): over the trailing
6 bars, (max-min)/min*100 < 20, guarded by len >= 6 and max > 0.  In ℚ a
division by min = 0 yields 0 where Python would raise; that point is only
reachable when a close equals 0 exactly. -/
def ruleFiveOf (bars : List Bar) : Bool :=
  let closes6 := (lastN 6 bars).map Bar.Close
  if 6 ≤ bars.length ∧ 0 < qmax closes6 then
    decide ((qmax closes6 - qmin closes6) / qmin closes6 * 100 < 20)
  else false

/-- Down bars (Close < Open) among the trailing 6 bars, as counted by
rule 6. -/
def downBarCount (bars : List Bar) : Nat :=
  ((lastN 6 bars).filter fun b => decide (b.Close < b.Open)).length

/-- Rule 6 of the checklist: evaluated only when rule 5 holds; among the
down bars of the trailing 6, the mean volume of the chronologically later
half must be below that of the earlier half; false with fewer than 2 down
bars or a non-positive early mean. -/
def ruleSixOf (bars : List Bar) : Bool :=
  if 6 ≤ bars.length ∧ ruleFiveOf bars = true then
    let downs := (lastN 6 bars).filter fun b => decide (b.Close < b.Open)
    if 2 ≤ downs.length then
      let vols := downs.map Bar.Volume
      if 2 ≤ vols.length then
        let mid := vols.length / 2
        if 0 < qmean (vols.take mid) then
          decide (qmean (vols.drop mid) < qmean (vols.take mid))
        else false
      else false
    else false
  else false

/-- The ten rule verdicts returned by check_buy_rules; the rounded display
values also present in the returned dictionary are omitted. -/
structure BuyRules where
  rule_1 : Bool
  rule_2 : Bool
  rule_3 : Bool
  rule_4 : Bool
  rule_5 : Bool
  rule_6 : Bool
  rule_7 : Bool
  rule_8 : Bool
  rule_9 : Bool
  rule_10 : Bool
deriving Repr, DecidableEq

/-- Rule verdicts read off the mutated frame, mirroring the body of
check_buy_rules after the column assignments: all latest/previous values are
taken from the stored columns at the last (and second to last) index. -/
def rulesFromFrame (g : Frame) : BuyRules :=
  let n := g.bars.length
  let latest := (g.bars.get? (n - 1)).getD default
  let prev_week : Option Bar := if 2 ≤ n then g.bars.get? (n - 2) else none
  let curr_price := latest.Close
  let ma10 : Option ℚ := ((g.ma10col.getD []).get? (n - 1)).join
  let ma20 : Option ℚ := ((g.ma20col.getD []).get? (n - 1)).join
  let ma30 : Option ℚ := ((g.ma30col.getD []).get? (n - 1)).join
  let prev_ma30 : Option ℚ :=
    if 2 ≤ n then ((g.ma30col.getD []).get? (n - 2)).join else none
  let difL : Option ℚ := (g.difCol.getD []).get? (n - 1)
  let deaL : Option ℚ := (g.deaCol.getD []).get? (n - 1)
  { rule_1 := optGTq ma10 ma20
    rule_2 := optGTq (some curr_price) ma20
    rule_3 := optGTq (some curr_price) ma30
    rule_4 := optGTq ma30 prev_ma30
    rule_5 := ruleFiveOf g.bars
    rule_6 := ruleSixOf g.bars
    rule_7 :=
      match prev_week with
      | some pw =>
        if 0 < pw.Close then
          decide ((curr_price - pw.Close) / pw.Close * 100 ≥ 5)
        else false
      | none => false
    rule_8 :=
      match prev_week with
      | some pw => decide (latest.Volume > pw.Volume)
      | none => false
    rule_9 := optGTq difL deaL
    rule_10 :=
      if 10 ≤ n then
        decide (curr_price ≥ qmax ((lastN 10 g.bars).map Bar.Close))
      else false }

/-- Embedding of check_buy_rules (stock_utils.py, lines 197-321): series
shorter than 30 bars yield the explicit insufficient-data result (None);
otherwise the derived columns are assigned onto the frame and the ten rule
verdicts are computed from it.  The returned pair is the mutated frame and
the verdict dictionary. -/
def check_buy_rules_frame (f : Frame) : Option (Frame × BuyRules) :=
  if f.bars.length < 30 then none
  else
    let g := addIndicators f
    some (g, rulesFromFrame g)

/-- The verdicts of check_buy_rules on a freshly fetched series (a frame
with no derived columns yet). -/
def check_buy_rules (bars : List Bar) : Option BuyRules :=
  (check_buy_rules_frame ⟨bars, none, none, none, none, none, none⟩).map Prod.snd

/-- Thirty identical bars (Close = Open = 100): enough data for the full
checklist, flat volatility, and no down bars. -/
def exConstBars : List Bar := List.replicate 30 ⟨100, 100, 90, 100, 50⟩

/-- A freshly fetched frame holding the thirty constant bars and no derived
columns. -/
def exConstFrame : Frame := ⟨exConstBars, none, none, none, none, none, none⟩

/-- The nine rule verdicts of main.get_stock_analysis (main.py computes no
rule 10). -/
structure MainRules where
  rule_1 : Bool
  rule_2 : Bool
  rule_3 : Bool
  rule_4 : Bool
  rule_5 : Bool
  rule_6 : Bool
  rule_7 : Bool
  rule_8 : Bool
  rule_9 : Bool
deriving Repr, DecidableEq

/-- Embedding of the rule evaluation of get_stock_analysis (main.py, lines
40-145): unlike stock_utils.check_buy_rules there is no 30-bar minimum
check, so every nonempty series receives a full 9-rule verdict set (the
moving averages are simply missing at the head of a short series and the
comparisons involving them come out False).  An empty series is modelled as
none, where pandas iloc[-1] would raise. -/
def main_get_stock_analysis (bars : List Bar) : Option MainRules :=
  if bars.length = 0 then none
  else
    let n := bars.length
    let closes := bars.map Bar.Close
    let col10 := rollingMean 10 closes
    let col20 := rollingMean 20 closes
    let col30 := rollingMean 30 closes
    let m := calculate_macd closes
    let latest := (bars.get? (n - 1)).getD default
    let prev_week : Option Bar := if 2 ≤ n then bars.get? (n - 2) else none
    let curr_price := latest.Close
    let ma10 := (col10.get? (n - 1)).join
    let ma20 := (col20.get? (n - 1)).join
    let ma30 := (col30.get? (n - 1)).join
    let prev_ma30 : Option ℚ := if 2 ≤ n then (col30.get? (n - 2)).join else none
    let difL := m.dif.get? (n - 1)
    let deaL := m.dea.get? (n - 1)
    some
      { rule_1 := optGTq ma10 ma20
        rule_2 := optGTq (some curr_price) ma20
        rule_3 := optGTq (some curr_price) ma30
        rule_4 := optGTq ma30 prev_ma30
        rule_5 := ruleFiveOf bars
        rule_6 := ruleSixOf bars
        rule_7 :=
          match prev_week with
          | some pw =>
            if 0 < pw.Close then
              decide ((curr_price - pw.Close) / pw.Close * 100 ≥ 5)
            else false
          | none => false
        rule_8 :=
          match prev_week with
          | some pw => decide (latest.Volume > pw.Volume)
          | none => false
        rule_9 := optGTq difL deaL }

/-- Six weekly bars: far fewer than the 30 the checklist requires. -/
def exShortBars : List Bar :=
  [⟨100, 101, 99, 100, 10⟩, ⟨100, 102, 100, 101, 11⟩, ⟨101, 103, 101, 102, 12⟩,
   ⟨102, 104, 102, 103, 13⟩, ⟨103, 105, 103, 104, 14⟩, ⟨104, 106, 104, 105, 15⟩]

/-- One entry of the worthy_stocks list of scanNasdaq100.main: the symbol
and its pass count (the full analysis payload carried alongside in the
source triple plays no role in the ranking and is omitted). -/
structure WorthyStock where
  symbol : String
  rulesPassed : Nat
deriving Repr, DecidableEq

/-- The sort key relation of `worthy_stocks.sort(key=..., reverse=True)`:
descending pass count. -/
def byPassCountDesc (a b : WorthyStock) : Prop := b.rulesPassed ≤ a.rulesPassed

instance : DecidableRel byPassCountDesc := fun a b =>
  Nat.decLe b.rulesPassed a.rulesPassed

instance : IsTotal WorthyStock byPassCountDesc :=
  ⟨fun a b => le_total b.rulesPassed a.rulesPassed⟩

instance : IsTrans WorthyStock byPassCountDesc :=
  ⟨fun _ _ _ hab hbc => le_trans hbc hab⟩

/-- The in-place `worthy_stocks.sort(key=lambda x: x[1], reverse=True)` of
scanNasdaq100.main: Python's sort is stable, modelled by the stable
insertion sort under the descending-pass-count relation. -/
def sortWorthy (l : List WorthyStock) : List WorthyStock :=
  List.insertionSort byPassCountDesc l

/-- `total_worthy_count = len(worthy_stocks)`, read after the in-place
sort. -/
def total_worthy_count (l : List WorthyStock) : Nat := (sortWorthy l).length

/-- `top5_stocks = worthy_stocks[:5]`: the first five entries of the sorted
list. -/
def top5_stocks (l : List WorthyStock) : List WorthyStock := (sortWorthy l).take 5

/-- Eight actionable results with distinct pass counts, in scan order. -/
def exWorthy8 : List WorthyStock :=
  [⟨"B", 7⟩, ⟨"A", 10⟩, ⟨"E", 6⟩, ⟨"C", 9⟩, ⟨"G", 2⟩, ⟨"D", 8⟩, ⟨"F", 5⟩, ⟨"H", 1⟩]

theorem ewmGo_length (a prev : ℚ) (l : List ℚ) : (ewmGo a prev l).length = l.length := by
  induction l generalizing prev with
  | nil => rfl
  | cons x xs ih => simp [ewmGo, ih]

theorem ewmMean_length (a : ℚ) (l : List ℚ) : (ewmMean a l).length = l.length := by
  cases l with
  | nil => rfl
  | cons x xs => simp [ewmMean, ewmGo_length]

theorem ewmGo_get?_zero (a prev : ℚ) (x : ℚ) (xs : List ℚ) :
    (ewmGo a prev (x :: xs)).get? 0 = some (x * a + prev * (1 - a)) := by
  simp [ewmGo]

/-- Internal recurrence of `ewmGo`: each output is computed from the input at
the same index and the previous output (or the seed at index 0). -/
theorem ewmGo_get?_succ (a : ℚ) (l : List ℚ) :
    ∀ (prev : ℚ) (i : Nat) (x e : ℚ), l.get? (i + 1) = some x →
      (ewmGo a prev l).get? i = some e →
      (ewmGo a prev l).get? (i + 1) = some (x * a + e * (1 - a)) := by
  induction l with
  | nil => intro prev i x e hx; simp at hx
  | cons y ys ih =>
    intro prev i x e hx he
    cases i with
    | zero =>
      have he0 : y * a + prev * (1 - a) = e := by simpa [ewmGo] using he
      cases ys with
      | nil => simp at hx
      | cons z zs =>
        have hz : z = x := by simpa using hx
        subst hz
        simp [ewmGo, he0]
    | succ j =>
      simp only [ewmGo, List.get?] at he ⊢
      exact ih _ j x e (by simpa using hx) he

/-- First element of the ewm output equals the first input. -/
theorem ewmMean_get?_zero (a : ℚ) (xs : List ℚ) :
    (ewmMean a xs).get? 0 = xs.get? 0 := by
  cases xs with
  | nil => rfl
  | cons x l => simp [ewmMean]

/-- Recurrence of the ewm output at successor indices. -/
theorem ewmMean_get?_succ (a : ℚ) (xs : List ℚ) (i : Nat) (x e : ℚ)
    (hx : xs.get? (i + 1) = some x) (he : (ewmMean a xs).get? i = some e) :
    (ewmMean a xs).get? (i + 1) = some (x * a + e * (1 - a)) := by
  cases xs with
  | nil => simp at hx
  | cons y ys =>
    cases i with
    | zero =>
      have hey : y = e := by simpa [ewmMean] using he
      cases ys with
      | nil => simp at hx
      | cons z zs =>
        have hz : z = x := by simpa using hx
        simp [ewmMean, ewmGo, hz, hey]
    | succ j =>
      simp only [ewmMean, List.get?] at he ⊢
      exact ewmGo_get?_succ a ys y j x e (by simpa using hx) he

theorem ewmGo_const (a c : ℚ) (n : Nat) :
    ewmGo a c (List.replicate n c) = List.replicate n c := by
  induction n with
  | zero => rfl
  | succ m ih =>
    have hc : c * a + c * (1 - a) = c := by ring
    simp [List.replicate, ewmGo, hc, ih]

/-- A constant input series is a fixed point of the ewm smoother. -/
theorem ewmMean_const (a c : ℚ) (n : Nat) :
    ewmMean a (List.replicate n c) = List.replicate n c := by
  cases n with
  | zero => rfl
  | succ m => simp [List.replicate, ewmMean, ewmGo_const]

/-- C2: calculate_macd computes DIF and DEA exactly by the specified
recurrence.  With k = 2/(span+1): ema[0] = close[0] and
ema[i+1] = close[i+1]*k + ema[i]*(1-k) (the adjust=False convention);
DIF is the pointwise difference of the fast (span 12) and slow (span 26)
EMAs of the closes; DEA is the EMA (span 9) of the DIF column; and on a
constant-price series DIF and DEA are 0 at every index. -/
theorem c2_macd_recurrence_and_constant_zero (close : List ℚ) (span i n : Nat)
    (c x e a b : ℚ) :
    ((ewmMean (2 / ((span : ℚ) + 1)) close).get? 0 = close.get? 0)
    ∧ (close.get? (i + 1) = some x →
        (ewmMean (2 / ((span : ℚ) + 1)) close).get? i = some e →
        (ewmMean (2 / ((span : ℚ) + 1)) close).get? (i + 1)
          = some (x * (2 / ((span : ℚ) + 1)) + e * (1 - 2 / ((span : ℚ) + 1))))
    ∧ ((ewmMean (2 / (((12 : Nat) : ℚ) + 1)) close).get? i = some a →
        (ewmMean (2 / (((26 : Nat) : ℚ) + 1)) close).get? i = some b →
        (calculate_macd close).dif.get? i = some (a - b))
    ∧ ((calculate_macd close).dea
        = ewmMean (2 / (((9 : Nat) : ℚ) + 1)) (calculate_macd close).dif)
    ∧ (i < n →
        (calculate_macd (List.replicate n c)).dif.get? i = some 0
        ∧ (calculate_macd (List.replicate n c)).dea.get? i = some 0) := by
  refine ⟨ewmMean_get?_zero _ _, ?_, ?_, ?_, ?_⟩
  · intro hx he
    exact ewmMean_get?_succ _ close i x e hx he
  · intro ha hb
    have h := List.get?_zipWith' (fun x y : ℚ => x - y)
        (ewmMean (2 / (((12 : Nat) : ℚ) + 1)) close)
        (ewmMean (2 / (((26 : Nat) : ℚ) + 1)) close) i
    rw [ha, hb] at h
    simpa [calculate_macd] using h
  · rfl
  · intro hin
    have hdif : (calculate_macd (List.replicate n c)).dif = List.replicate n 0 := by
      simp [calculate_macd, ewmMean_const, List.zipWith_replicate, sub_self]
    have hdea : (calculate_macd (List.replicate n c)).dea = List.replicate n 0 := by
      have : (calculate_macd (List.replicate n c)).dea
          = ewmMean (2 / (((9 : Nat) : ℚ) + 1)) (calculate_macd (List.replicate n c)).dif := rfl
      rw [this, hdif, ewmMean_const]
    constructor
    · rw [hdif]
      simp [List.get?_eq_getElem?, hin]
    · rw [hdea]
      simp [List.get?_eq_getElem?, hin]

/-- Witness for C2: the recurrence and the constant-series property evaluated
on concrete inputs (series [1,2,3] with span 12, and the constant series
7,7,7). -/
theorem c2_macd_witness :
    ((ewmMean (2 / (((12 : Nat) : ℚ) + 1)) [(1 : ℚ), 2, 3]).get? 1
        = some (2 * (2 / (((12 : Nat) : ℚ) + 1)) + 1 * (1 - 2 / (((12 : Nat) : ℚ) + 1))))
    ∧ ((calculate_macd [(1 : ℚ), 2, 3]).dif.get? 0 = some (1 - 1))
    ∧ ((calculate_macd (List.replicate 3 (7 : ℚ))).dif.get? 0 = some 0
        ∧ (calculate_macd (List.replicate 3 (7 : ℚ))).dea.get? 0 = some 0) :=
  have h := c2_macd_recurrence_and_constant_zero [(1 : ℚ), 2, 3] 12 0 3 7 2 1 1 1
  ⟨h.2.1 (by rfl) (by rfl), h.2.2.1 (by rfl) (by rfl), h.2.2.2.2 (by decide)⟩

/-- Counterexample to C1 as stated: with the monthly 10MA unchanged
(current = previous = 10) and the weekly 10MA above the 20MA (5 > 4), buy
sub-rule A fails, so the claimed sell condition (not-A or not-B) holds, yet
check_index_sell_signal does not fire: its rule 1 needs a strict decrease,
not a failure of the strict increase. -/
theorem c1_sell_or_counterexample :
    ((¬ ((10 : ℚ) > 10)) ∨ ¬ ((5 : ℚ) > 4))
    ∧ (check_index_sell_signal 10 10 5 4).should_sell = false :=
  ⟨Or.inl (by norm_num), by decide⟩

/-- C1 (amended): buy is true exactly when both sub-rules hold (A and B);
sell fires exactly when the monthly 10MA strictly decreased or the weekly
10MA is strictly below the 20MA; when neither indicator pair is at equality
this coincides with not-A or not-B over all four truth-table combinations. -/
theorem c1_index_buy_sell_truth_table (cur prev m10 m20 : ℚ) :
    ((check_index_buy_signal cur prev m10 m20).should_buy = true
      ↔ cur > prev ∧ m10 > m20)
    ∧ ((check_index_sell_signal cur prev m10 m20).should_sell = true
      ↔ cur < prev ∨ m10 < m20)
    ∧ (cur ≠ prev → m10 ≠ m20 →
        ((check_index_sell_signal cur prev m10 m20).should_sell = true
          ↔ (¬ (cur > prev)) ∨ ¬ (m10 > m20))) := by
  refine ⟨by simp [check_index_buy_signal], by simp [check_index_sell_signal], ?_⟩
  intro h1 h2
  have e1 : cur < prev ↔ ¬ (cur > prev) :=
    ⟨fun h => not_lt.2 h.le, fun h => (not_lt.1 h).lt_of_ne h1⟩
  have e2 : m10 < m20 ↔ ¬ (m10 > m20) :=
    ⟨fun h => not_lt.2 h.le, fun h => (not_lt.1 h).lt_of_ne h2⟩
  simp [check_index_sell_signal, e1, e2]

/-- Witness for C1: the amended truth-table statement applied at the
concrete indicator values (3, 5, 2, 1), where both comparisons are away from
equality. -/
theorem c1_index_witness :
    ((check_index_buy_signal 3 5 2 1).should_buy = true ↔ (3 : ℚ) > 5 ∧ (2 : ℚ) > 1)
    ∧ ((check_index_sell_signal 3 5 2 1).should_sell = true ↔ (3 : ℚ) < 5 ∨ (2 : ℚ) < 1)
    ∧ ((check_index_sell_signal 3 5 2 1).should_sell = true
        ↔ (¬ ((3 : ℚ) > 5)) ∨ ¬ ((2 : ℚ) > 1)) :=
  have h := c1_index_buy_sell_truth_table 3 5 2 1
  ⟨h.1, h.2.1, h.2.2 (by norm_num) (by norm_num)⟩

/-- Counterexample to C10 as stated: equality in only one of the two
comparisons does not make the signals neutral.  With the monthly 10MA
unchanged (10 = 10) but the weekly 10MA strictly below the 20MA (4 < 5),
the sell signal fires. -/
theorem c10_single_equality_counterexample :
    ((10 : ℚ) = 10) ∧ (check_index_sell_signal 10 10 4 5).should_sell = true :=
  ⟨rfl, by decide⟩

/-- C10 (amended): for identical indicator values the index buy and sell
signals are never both true, and when both comparisons are at equality
(current monthly 10MA = previous, and weekly 10MA = weekly 20MA) neither
fires: both checks use strict inequalities, leaving a neutral band at joint
equality. -/
theorem c10_buy_sell_never_both (cur prev m10 m20 : ℚ) :
    (¬ ((check_index_buy_signal cur prev m10 m20).should_buy = true
        ∧ (check_index_sell_signal cur prev m10 m20).should_sell = true))
    ∧ (cur = prev → m10 = m20 →
        (check_index_buy_signal cur prev m10 m20).should_buy = false
        ∧ (check_index_sell_signal cur prev m10 m20).should_sell = false) := by
  constructor
  · rintro ⟨hb, hs⟩
    simp [check_index_buy_signal] at hb
    simp [check_index_sell_signal] at hs
    rcases hs with h | h
    · exact absurd hb.1 (not_lt.2 h.le)
    · exact absurd hb.2 (not_lt.2 h.le)
  · intro h1 h2
    subst h1; subst h2
    simp [check_index_buy_signal, check_index_sell_signal]

/-- Witness for C10: the exclusivity statement applied at the joint-equality
point (10, 10, 3, 3), where neither signal fires. -/
theorem c10_neutral_witness :
    (¬ ((check_index_buy_signal 10 10 3 3).should_buy = true
        ∧ (check_index_sell_signal 10 10 3 3).should_sell = true))
    ∧ ((check_index_buy_signal 10 10 3 3).should_buy = false
        ∧ (check_index_sell_signal 10 10 3 3).should_sell = false) :=
  have h := c10_buy_sell_never_both 10 10 3 3
  ⟨h.1, h.2 rfl rfl⟩

/-- C6: the stop-loss check triggers exactly when
(purchase_price - current_price)/purchase_price*100 >= 7, computed
independently per lot (the batch check is the per-lot check mapped over the
records, each with its own purchase price); with current price 138 a lot
bought at 150 (drop 8%) triggers while a lot bought at 145 (drop 140/29 %,
about 4.83) does not. -/
theorem c6_stop_loss_per_lot (r : PurchaseRecord) (cp : ℚ)
    (records : List PurchaseRecord) (price_of : String → Option ℚ) (i : Nat)
    (sym d : String) (q : Option ℚ) :
    ((check_stop_loss r (some cp)).map StopLossResult.triggered
      = some (decide ((r.purchase_price - cp) / r.purchase_price * 100 ≥ 7)))
    ∧ ((check_all_stop_loss records price_of).get? i
      = (records.get? i).map fun rec => check_stop_loss rec (price_of rec.symbol))
    ∧ ((check_stop_loss ⟨sym, 150, d, q⟩ (some 138)).map StopLossResult.triggered
      = some true)
    ∧ ((check_stop_loss ⟨sym, 150, d, q⟩ (some 138)).map StopLossResult.drop_pct
      = some 8)
    ∧ ((check_stop_loss ⟨sym, 145, d, q⟩ (some 138)).map StopLossResult.triggered
      = some false)
    ∧ ((check_stop_loss ⟨sym, 145, d, q⟩ (some 138)).map StopLossResult.drop_pct
      = some (140 / 29)) := by
  refine ⟨rfl, ?_, ?_, ?_, ?_, ?_⟩
  · simp [check_all_stop_loss, List.get?_eq_getElem?, List.getElem?_map]
  · simp [check_stop_loss, STOP_LOSS_THRESHOLD]
    norm_num
  · simp [check_stop_loss]
    norm_num
  · simp [check_stop_loss, STOP_LOSS_THRESHOLD]
    norm_num
  · simp [check_stop_loss]
    norm_num

theorem deathCrossAt_of_ge_length (rows : List MRow) (j : Nat)
    (h : rows.length ≤ j) : deathCrossAt rows j = false := by
  unfold deathCrossAt
  rcases Nat.eq_zero_or_pos j with h0 | h0
  · simp [h0]
  · have : rows.get? j = none := by
      simp [List.get?_eq_getElem?, List.getElem?_eq_none h]
    rw [if_neg (Nat.pos_iff_ne_zero.1 h0), this]
    rcases rows.get? (j - 1) with _ | p <;> rfl

theorem findCrossFrom_some (rows : List MRow) :
    ∀ (n i : Nat) (low : ℚ), findCrossFrom rows n = some (i, low) →
      i ≤ n ∧ deathCrossAt rows i = true ∧ low = lowAt rows i
        ∧ ∀ j, i < j → j ≤ n → deathCrossAt rows j = false := by
  intro n
  induction n with
  | zero => intro i low h; simp [findCrossFrom] at h
  | succ m ih =>
    intro i low h
    unfold findCrossFrom at h
    by_cases hc : deathCrossAt rows (m + 1) = true
    · rw [if_pos hc] at h
      obtain ⟨hi, hlow⟩ : i = m + 1 ∧ low = lowAt rows (m + 1) := by
        have := h
        simp at this
        exact ⟨this.1.symm, this.2.symm⟩
      subst hi; subst hlow
      exact ⟨le_refl _, hc, rfl, fun j hj hj2 => absurd (lt_of_lt_of_le hj hj2) (lt_irrefl _)⟩
    · rw [if_neg hc] at h
      obtain ⟨hle, hcr, hlo, hnone⟩ := ih i low h
      refine ⟨le_trans hle (Nat.le_succ m), hcr, hlo, fun j hj hj2 => ?_⟩
      rcases Nat.lt_or_ge j (m + 1) with hlt | hge
      · exact hnone j hj (Nat.lt_succ_iff.1 hlt)
      · have : j = m + 1 := le_antisymm hj2 hge
        subst this
        exact Bool.not_eq_true _ ▸ (Bool.eq_false_iff.2 hc)

theorem findCrossFrom_none (rows : List MRow) :
    ∀ n : Nat, findCrossFrom rows n = none →
      ∀ j, 1 ≤ j → j ≤ n → deathCrossAt rows j = false := by
  intro n
  induction n with
  | zero => intro _ j h1 h2; omega
  | succ m ih =>
    intro h j h1 h2
    unfold findCrossFrom at h
    by_cases hc : deathCrossAt rows (m + 1) = true
    · rw [if_pos hc] at h; exact absurd h (by simp)
    · rw [if_neg hc] at h
      rcases Nat.lt_or_ge j (m + 1) with hlt | hge
      · exact ih h j h1 (Nat.lt_succ_iff.1 hlt)
      · have : j = m + 1 := le_antisymm h2 hge
        subst this
        exact Bool.eq_false_iff.2 hc

/-- C5: the death-cross scan returns the most recent index i with
DIF[i-1] > DEA[i-1] and DIF[i] <= DEA[i] together with that bar's low (no
later index crosses, so later non-crossing fluctuations cannot affect it);
when no crossing exists anywhere the scan returns none; and check_sell_signal
sells exactly when the current price is below the returned cross-week floor,
reporting an explicit death_cross_found = false status when no crossing was
found (distinct from a found-but-not-triggered result). -/
theorem c5_death_cross_scan (rows : List MRow) (bars : List Bar) (price : ℚ)
    (i : Nat) (low : ℚ) :
    (find_last_death_cross_week rows = some (i, low) →
        deathCrossAt rows i = true ∧ low = lowAt rows i
          ∧ noCrossAbove rows i = true)
    ∧ (find_last_death_cross_week rows = none → noCrossAnywhere rows = true)
    ∧ (2 ≤ bars.length →
        ((check_sell_signal bars price).map SellSignalResult.should_sell
          = some (match find_last_death_cross_week (macdRows bars) with
                  | some (_, l) => decide (price < l)
                  | none => false))
        ∧ ((check_sell_signal bars price).map SellSignalResult.death_cross_found
          = some (find_last_death_cross_week (macdRows bars)).isSome)) := by
  refine ⟨?_, ?_, ?_⟩
  · intro h
    unfold find_last_death_cross_week at h
    by_cases hlen : rows.length < 2
    · rw [if_pos hlen] at h; exact absurd h (by simp)
    · rw [if_neg hlen] at h
      obtain ⟨hle, hcr, hlo, hnone⟩ := findCrossFrom_some rows _ i low h
      refine ⟨hcr, hlo, ?_⟩
      unfold noCrossAbove
      rw [List.all_eq_true]
      intro j hj
      rw [List.mem_range] at hj
      by_cases hji : j ≤ i
      · simp [hji]
      · have : deathCrossAt rows j = false := hnone j (not_le.1 hji) (by omega)
        simp [this]
  · intro h
    unfold find_last_death_cross_week at h
    unfold noCrossAnywhere
    rw [List.all_eq_true]
    intro j hj
    rw [List.mem_range] at hj
    by_cases hlen : rows.length < 2
    · have : j = 0 := by omega
      subst this
      simp [deathCrossAt]
    · rw [if_neg hlen] at h
      rcases Nat.eq_zero_or_pos j with h0 | h0
      · subst h0; simp [deathCrossAt]
      · have : deathCrossAt rows j = false :=
          findCrossFrom_none rows _ h j h0 (by omega)
        simp [this]
  · intro h2
    unfold check_sell_signal
    rw [if_neg (not_lt.2 h2)]
    rcases hfind : find_last_death_cross_week (macdRows bars) with _ | ⟨k, l⟩ <;>
      simp [hfind]

/-- Witness for C5: the scan finds the single crossing of exCrossRows at
index 3 with low 9 despite the later fluctuation, reports no crossing for
exFlatRows, and on exSellBars (death cross week low 7, current price 6) the
sell signal fires with the found-status set. -/
theorem c5_death_cross_witness :
    (deathCrossAt exCrossRows 3 = true ∧ (9 : ℚ) = lowAt exCrossRows 3
      ∧ noCrossAbove exCrossRows 3 = true)
    ∧ noCrossAnywhere exFlatRows = true
    ∧ ((check_sell_signal exSellBars 6).map SellSignalResult.should_sell = some true)
    ∧ ((check_sell_signal exSellBars 6).map SellSignalResult.death_cross_found
        = some true) :=
  have h1 := c5_death_cross_scan exCrossRows [] 0 3 9
  have h2 := c5_death_cross_scan exFlatRows [] 0 0 0
  have h3 := c5_death_cross_scan [] exSellBars 6 0 0
  ⟨h1.1 (by with_unfolding_all decide), h2.2.1 (by with_unfolding_all decide),
   ((h3.2.2 (by decide)).1).trans (by with_unfolding_all decide),
   ((h3.2.2 (by decide)).2).trans (by with_unfolding_all decide)⟩

theorem optPos_some (q : ℚ) : optPos (some q) = decide (0 < q) := rfl

theorem optPos_none : optPos none = false := rfl

theorem windowVolume_cons_aux (l : List Bar) : ∀ prev : ℚ,
    ((((l.zip (List.zipWith (fun p n => some (n - p)) (prev :: l.map Bar.Close)
        (l.map Bar.Close))).filter fun r => optPos r.2).map
          fun r => r.1.Volume).sum = specUpVolume prev l)
    ∧ ((((l.zip (List.zipWith (fun p n => some (n - p)) (prev :: l.map Bar.Close)
        (l.map Bar.Close))).filter fun r => ! optPos r.2).map
          fun r => r.1.Volume).sum = specDownVolume prev l) := by
  induction l with
  | nil => intro prev; simp [specUpVolume, specDownVolume]
  | cons b bs ih =>
    intro prev
    have h1 := (ih b.Close).1
    have h2 := (ih b.Close).2
    by_cases h : prev < b.Close
    · simp [specUpVolume, specDownVolume, optPos_some, sub_pos, h, h1, h2]
    · simp [specUpVolume, specDownVolume, optPos_some, sub_pos, h, h1, h2]

theorem windowUpVolume_cons (b0 : Bar) (rest : List Bar) :
    windowUpVolume (b0 :: rest) = specUpVolume b0.Close rest := by
  unfold windowUpVolume
  have h := (windowVolume_cons_aux rest b0.Close).1
  simpa [diffO, optPos_none] using h

theorem windowDownVolume_cons (b0 : Bar) (rest : List Bar) :
    windowDownVolume (b0 :: rest) = b0.Volume + specDownVolume b0.Close rest := by
  unfold windowDownVolume
  have h := (windowVolume_cons_aux rest b0.Close).2
  simpa [diffO, optPos_none] using h

/-- Counterexample to C8 as stated: on ten bars whose closes strictly
increase (so, reading the claim, the first bar is unclassified and the
down-volume total is 0, making positive_signal false), analyze_volume_trend
counts the window's first bar as a down month: the down total is its volume
(1, not 0) and positive_signal comes out true. -/
theorem c8_first_bar_counterexample :
    ((analyze_volume_trend exUpBars).map VolumeTrendResult.total_down_volume
      = some 1)
    ∧ ((analyze_volume_trend exUpBars).map VolumeTrendResult.positive_signal
      = some true)
    ∧ ((List.zipWith (fun x y => decide (x.Close < y.Close)) exUpBars
        exUpBars.tail).all id = true) := by
  refine ⟨?_, ?_, ?_⟩ <;> with_unfolding_all decide

/-- C8 (amended): analyze_volume_trend classifies each bar of the trailing
10-bar window by the sign of the close difference, except that the window's
first bar (whose pandas diff is NaN) is classified as a down month and its
volume is included in the down-volume total; the up total is the volume of
the bars whose close strictly exceeds the previous close; and
positive_signal is true exactly when the up total exceeds the down total
with both totals strictly positive. -/
theorem c8_volume_trend_totals (b0 : Bar) (rest bars : List Bar) :
    (windowUpVolume (b0 :: rest) = specUpVolume b0.Close rest)
    ∧ (windowDownVolume (b0 :: rest) = b0.Volume + specDownVolume b0.Close rest)
    ∧ (windowPositiveSignal (b0 :: rest) = true ↔
        0 < windowUpVolume (b0 :: rest) ∧ 0 < windowDownVolume (b0 :: rest)
          ∧ windowDownVolume (b0 :: rest) < windowUpVolume (b0 :: rest))
    ∧ (10 ≤ bars.length →
        ((analyze_volume_trend bars).map VolumeTrendResult.total_up_volume
          = some (windowUpVolume (lastN 10 bars))
        ∧ (analyze_volume_trend bars).map VolumeTrendResult.total_down_volume
          = some (windowDownVolume (lastN 10 bars))
        ∧ (analyze_volume_trend bars).map VolumeTrendResult.positive_signal
          = some (windowPositiveSignal (lastN 10 bars)))) := by
  refine ⟨windowUpVolume_cons b0 rest, windowDownVolume_cons b0 rest, ?_, ?_⟩
  · unfold windowPositiveSignal
    split_ifs with h
    · simp [h.1, h.2]
    · constructor
      · intro hfalse; exact absurd hfalse (by simp)
      · intro hc; exact absurd (And.intro hc.1 hc.2.1) h
  · intro hlen
    unfold analyze_volume_trend
    rw [if_neg (not_lt.2 hlen)]
    exact ⟨rfl, rfl, rfl⟩

/-- Witness for C8: the amended totals evaluated on the three-bar window
(head volume 2, one up month of volume 3, one down month of volume 4) and
on the ten increasing bars. -/
theorem c8_volume_trend_witness :
    (windowUpVolume (exW0 :: exWrest) = specUpVolume exW0.Close exWrest)
    ∧ (windowDownVolume (exW0 :: exWrest) = exW0.Volume + specDownVolume exW0.Close exWrest)
    ∧ (specUpVolume exW0.Close exWrest = 3)
    ∧ (exW0.Volume + specDownVolume exW0.Close exWrest = 6)
    ∧ ((analyze_volume_trend exUpBars).map VolumeTrendResult.total_up_volume
        = some (windowUpVolume (lastN 10 exUpBars))) :=
  have h := c8_volume_trend_totals exW0 exWrest exUpBars
  ⟨h.1, h.2.1, by with_unfolding_all decide, by with_unfolding_all decide,
   (h.2.2.2 (by decide)).1⟩

theorem ruleSixOf_false_of_rule5_false (bars : List Bar)
    (h : ruleFiveOf bars = false) : ruleSixOf bars = false := by
  unfold ruleSixOf
  rw [if_neg]
  intro hc
  rw [h] at hc
  exact absurd hc.2 (by simp)

theorem ruleSixOf_false_of_few_downs (bars : List Bar)
    (h : downBarCount bars < 2) : ruleSixOf bars = false := by
  unfold ruleSixOf
  by_cases h6 : 6 ≤ bars.length ∧ ruleFiveOf bars = true
  · rw [if_pos h6, if_neg]
    unfold downBarCount at h
    exact not_le.2 h
  · rw [if_neg h6]

/-- C4: whenever check_buy_rules returns a verdict set, rule 6 is false
whenever rule 5 is false (rule 6 is the conjunction of itself with rule 5),
and rule 6 is also false whenever fewer than 2 of the trailing 6 bars are
down bars (Close < Open). -/
theorem c4_rule6_shortcircuit (bars : List Bar) (r : BuyRules)
    (h : check_buy_rules bars = some r) :
    r.rule_6 = (r.rule_5 && r.rule_6)
    ∧ r.rule_6 = (decide (2 ≤ downBarCount bars) && r.rule_6) := by
  unfold check_buy_rules check_buy_rules_frame at h
  by_cases hl : bars.length < 30
  · simp [hl] at h
  · simp [hl] at h
    have h5 : r.rule_5 = ruleFiveOf bars := by rw [← h]; rfl
    have h6 : r.rule_6 = ruleSixOf bars := by rw [← h]; rfl
    rw [h5, h6]
    constructor
    · cases hb : ruleFiveOf bars
      · rw [ruleSixOf_false_of_rule5_false bars hb]
        simp
      · simp
    · cases hd : decide (2 ≤ downBarCount bars)
      · have hlt : downBarCount bars < 2 := by simpa using hd
        rw [ruleSixOf_false_of_few_downs bars hlt]
        simp
      · simp

/-- Witness for C4: the short-circuit equations at the thirty constant bars
(where check_buy_rules returns a verdict set with rule 5 true and no down
bars). -/
theorem c4_rule6_witness :
    ((rulesFromFrame (addIndicators exConstFrame)).rule_6
      = ((rulesFromFrame (addIndicators exConstFrame)).rule_5
          && (rulesFromFrame (addIndicators exConstFrame)).rule_6))
    ∧ ((rulesFromFrame (addIndicators exConstFrame)).rule_6
      = (decide (2 ≤ downBarCount exConstBars)
          && (rulesFromFrame (addIndicators exConstFrame)).rule_6)) :=
  c4_rule6_shortcircuit exConstBars (rulesFromFrame (addIndicators exConstFrame)) rfl

/-- C9: check_buy_rules only adds derived columns to the frame: the bar
series of the returned frame is the input bar series unchanged; and the
computation is deterministic and free of hidden state, so re-running it on
the returned (already mutated) frame returns the identical frame and the
identical verdicts. -/
theorem c9_check_buy_rules_pure (f f1 : Frame) (r : BuyRules)
    (h : check_buy_rules_frame f = some (f1, r)) :
    f1.bars = f.bars ∧ check_buy_rules_frame f1 = some (f1, r) := by
  unfold check_buy_rules_frame at h ⊢
  by_cases hl : f.bars.length < 30
  · rw [if_pos hl] at h
    exact absurd h (by simp)
  · rw [if_neg hl] at h
    obtain ⟨hf, hr⟩ : addIndicators f = f1 ∧ rulesFromFrame (addIndicators f) = r := by
      simpa using h
    subst hf
    subst hr
    refine ⟨rfl, ?_⟩
    rw [if_neg (by simpa [addIndicators] using hl)]
    rfl

/-- Witness for C9: re-running check_buy_rules on the frame it returned for
the thirty constant bars reproduces the same frame and verdicts, with the
bar series untouched. -/
theorem c9_pure_witness :
    (addIndicators exConstFrame).bars = exConstFrame.bars
    ∧ check_buy_rules_frame (addIndicators exConstFrame)
        = some (addIndicators exConstFrame, rulesFromFrame (addIndicators exConstFrame)) :=
  c9_check_buy_rules_pure exConstFrame (addIndicators exConstFrame)
    (rulesFromFrame (addIndicators exConstFrame)) rfl

/-- C3: stock_utils.check_buy_rules returns the explicit insufficient-data
result (None) on every series shorter than 30 bars and never a partial
verdict set; but the inline evaluator of main.get_stock_analysis has no such
guard and produces a full 9-rule verdict set on the same 6-bar series,
contradicting the claim for that cited variant. -/
theorem c3_insufficient_data_guard :
    (∀ bars : List Bar, bars.length < 30 → check_buy_rules bars = none)
    ∧ (check_buy_rules exShortBars = none)
    ∧ ((main_get_stock_analysis exShortBars).isSome = true)
    ∧ (exShortBars.length < 30) := by
  refine ⟨?_, ?_, ?_, ?_⟩
  · intro bars hl
    unfold check_buy_rules check_buy_rules_frame
    simp [hl]
  · rfl
  · rfl
  · decide

theorem filter_orderedInsert_eq (k : Nat) (a : WorthyStock)
    (h : a.rulesPassed = k) (l : List WorthyStock) :
    (List.orderedInsert byPassCountDesc a l).filter (fun w => w.rulesPassed == k)
      = a :: l.filter (fun w => w.rulesPassed == k) := by
  induction l with
  | nil => simp [List.orderedInsert, h]
  | cons b bs ih =>
    by_cases hr : byPassCountDesc a b
    · rw [List.orderedInsert_of_le _ _ hr]
      simp [h]
    · have hb : ¬ b.rulesPassed = k := by
        intro hbk
        exact hr (by simp [byPassCountDesc, hbk, ← h])
      simp only [List.orderedInsert, if_neg hr, List.filter_cons]
      simp [hb, ih]

theorem filter_orderedInsert_ne (k : Nat) (a : WorthyStock)
    (h : ¬ a.rulesPassed = k) (l : List WorthyStock) :
    (List.orderedInsert byPassCountDesc a l).filter (fun w => w.rulesPassed == k)
      = l.filter (fun w => w.rulesPassed == k) := by
  induction l with
  | nil => simp [List.orderedInsert, h]
  | cons b bs ih =>
    by_cases hr : byPassCountDesc a b
    · rw [List.orderedInsert_of_le _ _ hr]
      simp [h]
    · simp only [List.orderedInsert, if_neg hr, List.filter_cons]
      rw [ih]

/-- Stability of the modelled sort: the entries of any fixed pass count
appear in the sorted list exactly in their original scan order. -/
theorem filter_sortWorthy (k : Nat) (l : List WorthyStock) :
    (sortWorthy l).filter (fun w => w.rulesPassed == k)
      = l.filter (fun w => w.rulesPassed == k) := by
  induction l with
  | nil => rfl
  | cons a as ih =>
    show (List.orderedInsert byPassCountDesc a
        (List.insertionSort byPassCountDesc as)).filter (fun w => w.rulesPassed == k)
      = (a :: as).filter (fun w => w.rulesPassed == k)
    by_cases h : a.rulesPassed = k
    · rw [filter_orderedInsert_eq k a h,
        show List.insertionSort byPassCountDesc as = sortWorthy as from rfl, ih]
      simp [h]
    · rw [filter_orderedInsert_ne k a h,
        show List.insertionSort byPassCountDesc as = sortWorthy as from rfl, ih]
      simp [h]

/-- C7: the scanner sorts the actionable results by descending pass count
(the sorted list is a permutation of the actionable list, pairwise sorted,
and stable: equal pass counts keep their original scan order), retains
exactly the first five for detailed rendering, and reports the length of the
full actionable list as the total; on eight actionable results with distinct
pass counts the detailed top five are exactly the five highest in descending
order while the reported total stays 8. -/
theorem c7_ranking_top5 (worthy : List WorthyStock) (k : Nat) :
    (total_worthy_count worthy = worthy.length)
    ∧ (sortWorthy worthy).Perm worthy
    ∧ List.Sorted byPassCountDesc (sortWorthy worthy)
    ∧ ((sortWorthy worthy).filter (fun w => w.rulesPassed == k)
        = worthy.filter (fun w => w.rulesPassed == k))
    ∧ (top5_stocks worthy = (sortWorthy worthy).take 5)
    ∧ (top5_stocks exWorthy8
        = [⟨"A", 10⟩, ⟨"C", 9⟩, ⟨"D", 8⟩, ⟨"B", 7⟩, ⟨"E", 6⟩])
    ∧ (total_worthy_count exWorthy8 = 8) := by
  refine ⟨?_, List.perm_insertionSort byPassCountDesc worthy,
    List.sorted_insertionSort byPassCountDesc worthy,
    filter_sortWorthy k worthy, rfl, by decide, by decide⟩
  exact (List.perm_insertionSort byPassCountDesc worthy).length_eq
